import Mathlib

/-!
Verification development for the techy-petes-arena paper-trading system.

The Python sources (src/engine.py, src/bot.py, src/live_trader.py) are
shallowly embedded here: Python floats are modelled as rationals, Python
dictionaries that preserve insertion order are modelled as association
lists with unique keys, timestamps produced by datetime.now() are threaded
as explicit string parameters, and the fallible operations return the
(success flag, message) pair together with the next ledger state.
File system and network effects (yfinance fetching, JSON file writing)
are outside the embedded core, matching section 1 and section 6 of the
specification; the persisted-snapshot round trip is modelled on the
in-memory dictionary produced by save and consumed by load.
-/

namespace OpenClaw

/-- Position from src/engine.py lines 20-48.  The constructor
(Position.make below) sets current_price and high_since_entry to the
entry price, as __init__ does. -/
structure Position where
  symbol : String
  quantity : ℚ
  entry_price : ℚ
  entry_date : String
  asset_type : String
  current_price : ℚ
  high_since_entry : ℚ
deriving DecidableEq

/-- Position.__init__ (src/engine.py lines 23-30). -/
def Position.make (symbol : String) (quantity entry_price : ℚ)
    (entry_date asset_type : String) : Position :=
  { symbol := symbol, quantity := quantity, entry_price := entry_price,
    entry_date := entry_date, asset_type := asset_type,
    current_price := entry_price, high_since_entry := entry_price }

/-- market_value property (engine.py line 33). -/
def Position.market_value (p : Position) : ℚ := p.quantity * p.current_price

/-- cost_basis property (engine.py line 37). -/
def Position.cost_basis (p : Position) : ℚ := p.quantity * p.entry_price

/-- unrealized_pnl property (engine.py line 41). -/
def Position.unrealized_pnl (p : Position) : ℚ := p.market_value - p.cost_basis

/-- unrealized_pnl_pct property (engine.py lines 44-48), 0 when the cost
basis is 0. -/
def Position.unrealized_pnl_pct (p : Position) : ℚ :=
  if p.cost_basis = 0 then 0 else p.unrealized_pnl / p.cost_basis * 100

/-- A trade record appended to trade_history (engine.py lines 136-146 for
BUY, 172-184 for SELL).  The pnl and pnl_pct keys appear only on SELL
records, hence the Option fields. -/
structure Trade where
  timestamp : String
  action : String
  symbol : String
  quantity : ℚ
  price : ℚ
  total : ℚ
  asset_type : String
  reason : String
  cash_after : ℚ
  pnl : Option ℚ
  pnl_pct : Option ℚ
deriving DecidableEq

/-- The Portfolio ledger (engine.py lines 75-87).  The positions dict is an
insertion-ordered association list with unique keys; data_dir and the two
file paths are file-system handles outside the embedded core. -/
structure Portfolio where
  starting_cash : ℚ
  cash : ℚ
  positions : List (String × Position)
  trade_history : List Trade
  created_at : String
  last_updated : String
deriving DecidableEq

/-- Portfolio.__init__ (engine.py lines 78-87). -/
def Portfolio.init (starting_cash : ℚ) (now : String) : Portfolio :=
  { starting_cash := starting_cash, cash := starting_cash, positions := [],
    trade_history := [], created_at := now, last_updated := now }

/-- Lookup in the positions dict ("symbol in self.positions" /
"self.positions[symbol]"). -/
def lookupPos : List (String × Position) → String → Option Position
  | [], _ => none
  | e :: rest, sym => if e.1 = sym then some e.2 else lookupPos rest sym

/-- Assignment "self.positions[symbol] = pos" on a dict: replaces the value
of an existing key in place, otherwise appends the new key at the end. -/
def setPos : List (String × Position) → String → Position → List (String × Position)
  | [], sym, pos => [(sym, pos)]
  | e :: rest, sym, pos =>
      if e.1 = sym then (e.1, pos) :: rest else e :: setPos rest sym pos

/-- Deletion "del self.positions[symbol]" on a dict. -/
def removePos : List (String × Position) → String → List (String × Position)
  | [], _ => []
  | e :: rest, sym => if e.1 = sym then rest else e :: removePos rest sym

/-- total_positions_value property (engine.py lines 89-91). -/
def Portfolio.total_positions_value (p : Portfolio) : ℚ :=
  (p.positions.map (fun e => e.2.market_value)).sum

/-- total_value property (engine.py lines 93-95). -/
def Portfolio.total_value (p : Portfolio) : ℚ := p.cash + p.total_positions_value

/-- num_positions property (engine.py lines 107-109). -/
def Portfolio.num_positions (p : Portfolio) : ℕ := p.positions.length

/-- Portfolio.buy (engine.py lines 111-150).  Returns the (success flag,
message) result of the Python method together with the updated ledger;
message text is condensed because the numeric interpolation of the Python
f-string is irrelevant to every claim.  The save() call at line 149 is
file output, modelled separately by save_state below. -/
def Portfolio.buy (p : Portfolio) (symbol : String) (quantity price : ℚ)
    (asset_type reason now : String) : (Bool × String) × Portfolio :=
  let cost := quantity * price
  if p.cash < cost then ((false, "Insufficient cash"), p)
  else
    let cash1 := p.cash - cost
    let positions1 :=
      match lookupPos p.positions symbol with
      | some existing =>
          let total_qty := existing.quantity + quantity
          let avg_price :=
            (existing.quantity * existing.entry_price + quantity * price) / total_qty
          setPos p.positions symbol
            { existing with quantity := total_qty, entry_price := avg_price,
                            current_price := price }
      | none =>
          p.positions ++ [(symbol, Position.make symbol quantity price now asset_type)]
    let trade : Trade :=
      { timestamp := now, action := "BUY", symbol := symbol, quantity := quantity,
        price := price, total := cost, asset_type := asset_type, reason := reason,
        cash_after := cash1, pnl := none, pnl_pct := none }
    ((true, "Bought"),
     { p with cash := cash1, positions := positions1,
              trade_history := p.trade_history ++ [trade], last_updated := now })

/-- Portfolio.sell (engine.py lines 152-194).  quantity0 and price0 model
the optional arguments: none stands for the Python default None (sell the
whole position, at its current price). -/
def Portfolio.sell (p : Portfolio) (symbol : String) (quantity0 price0 : Option ℚ)
    (reason now : String) : (Bool × String) × Portfolio :=
  match lookupPos p.positions symbol with
  | none => ((false, "No position"), p)
  | some pos =>
    let quantity := quantity0.getD pos.quantity
    if pos.quantity < quantity then ((false, "Only have fewer shares"), p)
    else
      let price := price0.getD pos.current_price
      let proceeds := quantity * price
      let pnl := (price - pos.entry_price) * quantity
      let cash1 := p.cash + proceeds
      let trade : Trade :=
        { timestamp := now, action := "SELL", symbol := symbol, quantity := quantity,
          price := price, total := proceeds, asset_type := pos.asset_type,
          reason := reason, cash_after := cash1, pnl := some pnl,
          pnl_pct := some ((price - pos.entry_price) / pos.entry_price * 100) }
      let positions1 :=
        if pos.quantity ≤ quantity then removePos p.positions symbol
        else setPos p.positions symbol { pos with quantity := pos.quantity - quantity }
      ((true, "Sold"),
       { p with cash := cash1, positions := positions1,
                trade_history := p.trade_history ++ [trade], last_updated := now })

/-- The per-position body of Portfolio.update_prices (engine.py lines
198-202): a symbol present in the map with a non-null value gets its
current_price set and its high_since_entry raised on a new high; map
absence and a null value are both modelled by none. -/
def updatePosPrice (pm : String → Option ℚ) (sym : String) (pos : Position) : Position :=
  match pm sym with
  | some v =>
      let pos1 := { pos with current_price := v }
      if pos1.high_since_entry < pos1.current_price then
        { pos1 with high_since_entry := pos1.current_price }
      else pos1
  | none => pos

/-- Portfolio.update_prices (engine.py lines 196-203). -/
def Portfolio.update_prices (p : Portfolio) (pm : String → Option ℚ)
    (now : String) : Portfolio :=
  { p with positions := p.positions.map (fun e => (e.1, updatePosPrice pm e.1 e.2)),
           last_updated := now }

/-- The dictionary Position.to_dict produces (engine.py lines 50-59).
Option fields record which keys Position.from_dict reads with a default:
to_dict always writes them, but a hand-edited snapshot may omit them. -/
structure PositionDict where
  symbol : String
  quantity : ℚ
  entry_price : ℚ
  entry_date : String
  asset_type : Option String
  current_price : Option ℚ
  high_since_entry : Option ℚ
deriving DecidableEq

/-- Position.to_dict (engine.py lines 50-59). -/
def Position.to_dict (p : Position) : PositionDict :=
  { symbol := p.symbol, quantity := p.quantity, entry_price := p.entry_price,
    entry_date := p.entry_date, asset_type := some p.asset_type,
    current_price := some p.current_price,
    high_since_entry := some p.high_since_entry }

/-- Position.from_dict (engine.py lines 61-72): rebuilds through the
constructor, then overrides current_price and high_since_entry from the
dict, defaulting each to the entry price, and asset_type to "stock". -/
def Position.from_dict (d : PositionDict) : Position :=
  let pos := Position.make d.symbol d.quantity d.entry_price d.entry_date
      (d.asset_type.getD "stock")
  { pos with current_price := d.current_price.getD d.entry_price,
             high_since_entry := d.high_since_entry.getD d.entry_price }

/-- The state dictionary written by Portfolio.save (engine.py lines
249-256) and read back by Portfolio.load (lines 303-314).  Keys that load
reads through state.get with a default are Option fields; cash is read
unconditionally.  The JSON encoding of this dictionary and the equity
snapshot side file are file output outside the embedded core. -/
structure SnapshotState where
  starting_cash : Option ℚ
  cash : ℚ
  created_at : Option String
  last_updated : Option String
  positions : Option (List (String × PositionDict))
  trade_history : Option (List Trade)
deriving DecidableEq

/-- Portfolio.save, restricted to the state dictionary it serializes
(engine.py lines 246-258). -/
def Portfolio.save_state (p : Portfolio) : SnapshotState :=
  { starting_cash := some p.starting_cash, cash := p.cash,
    created_at := some p.created_at, last_updated := some p.last_updated,
    positions := some (p.positions.map (fun e => (e.1, e.2.to_dict))),
    trade_history := some p.trade_history }

/-- Portfolio.load on a successfully parsed snapshot (engine.py lines
294-316): builds a fresh ledger through the constructor, then overrides
every field present in the state dictionary.  The missing-file and
unparseable-file recovery branches concern the file system, outside the
embedded core. -/
def Portfolio.load_state (state : SnapshotState) (starting_cash : ℚ)
    (now : String) : Portfolio :=
  let p := Portfolio.init starting_cash now
  { p with
    starting_cash := state.starting_cash.getD starting_cash,
    cash := state.cash,
    created_at := state.created_at.getD now,
    last_updated := state.last_updated.getD now,
    trade_history := state.trade_history.getD [],
    positions := (state.positions.getD []).map (fun e => (e.1, Position.from_dict e.2)) }

/-- One ledger mutation, for stating invariants over operation sequences:
a call to Portfolio.buy or Portfolio.sell with its arguments. -/
inductive Op where
  | buy (symbol : String) (quantity price : ℚ) (asset_type reason now : String)
  | sell (symbol : String) (quantity0 price0 : Option ℚ) (reason now : String)
deriving DecidableEq

/-- Apply one operation to the ledger, keeping the next state. -/
def applyOp (p : Portfolio) : Op → Portfolio
  | .buy symbol quantity price asset_type reason now =>
      (p.buy symbol quantity price asset_type reason now).2
  | .sell symbol quantity0 price0 reason now =>
      (p.sell symbol quantity0 price0 reason now).2

/-- Apply a sequence of operations left to right. -/
def applyOps (p : Portfolio) (ops : List Op) : Portfolio := ops.foldl applyOp p

/-- The hypotheses of claim C1 as stated: every buy has positive quantity
and price, every sell a non-negative sale price when one is given. -/
def claimOp : Op → Bool
  | .buy _ quantity price _ _ _ => decide (0 < quantity) && decide (0 < price)
  | .sell _ _ price0 _ _ =>
      match price0 with
      | some pr => decide (0 ≤ pr)
      | none => true

/-- claimOp strengthened with the amendment: an explicitly given sell
quantity must also be non-negative. -/
def validOp : Op → Bool
  | .buy _ quantity price _ _ _ => decide (0 < quantity) && decide (0 < price)
  | .sell _ quantity0 price0 _ _ =>
      (match quantity0 with
       | some q => decide (0 ≤ q)
       | none => true) &&
      (match price0 with
       | some pr => decide (0 ≤ pr)
       | none => true)

/-- A trading signal (src/bot.py lines 17-41).  The creation timestamp of
the Python object is dropped: no claim observes it. -/
structure Signal where
  action : String
  symbol : String
  strength : ℚ
  reasons : List String
  price : Option ℚ
  asset_type : String
deriving DecidableEq

/-- The bot configuration fields read in OpenClawBot.__init__ (bot.py
lines 50-60) that the embedded methods consume. -/
structure OpenClawBot where
  max_position_pct : ℚ
  max_positions : ℕ
  stop_loss_pct : ℚ
  take_profit_pct : ℚ
  trailing_stop_pct : ℚ
  min_signal_strength : ℚ
deriving DecidableEq

/-- The HOLD reasons list of analyze_symbol (bot.py lines 208-214):
summaries of both sides, or the no-signal message when neither fired. -/
def holdReasons (buy_reasons sell_reasons : List String) : List String :=
  let all_reasons :=
    (if buy_reasons.isEmpty then []
     else ["Bullish: " ++ String.intercalate ", " buy_reasons]) ++
    (if sell_reasons.isEmpty then []
     else ["Bearish: " ++ String.intercalate ", " sell_reasons])
  if all_reasons.isEmpty then ["No significant signals"] else all_reasons

/-- The final decision of OpenClawBot.analyze_symbol (bot.py lines
200-215), given the buy and sell strengths and reasons accumulated from
the six indicator families over the external indicator table. -/
def analyze_symbol_decision (min_signal_strength buy_strength sell_strength : ℚ)
    (buy_reasons sell_reasons : List String) (symbol : String) (price : ℚ)
    (asset_type : String) : Signal :=
  let net_strength := buy_strength - sell_strength
  if min_signal_strength ≤ net_strength then
    { action := "BUY", symbol := symbol, strength := buy_strength,
      reasons := buy_reasons, price := some price, asset_type := asset_type }
  else if net_strength ≤ -min_signal_strength then
    { action := "SELL", symbol := symbol, strength := sell_strength,
      reasons := sell_reasons, price := some price, asset_type := asset_type }
  else
    { action := "HOLD", symbol := symbol, strength := |net_strength|,
      reasons := holdReasons buy_reasons sell_reasons, price := some price,
      asset_type := asset_type }

/-- The stop-loss condition of check_exit_conditions (bot.py line 228). -/
def stopFired (bot : OpenClawBot) (pos : Position) : Bool :=
  decide (pos.unrealized_pnl_pct / 100 ≤ -bot.stop_loss_pct)

/-- The take-profit condition (bot.py line 233). -/
def takeFired (bot : OpenClawBot) (pos : Position) : Bool :=
  decide (bot.take_profit_pct ≤ pos.unrealized_pnl_pct / 100)

/-- The trailing-stop condition (bot.py lines 238-240): only checked with
a positive high-water mark, and only while the position is profitable. -/
def trailFired (bot : OpenClawBot) (pos : Position) : Bool :=
  decide (0 < pos.high_since_entry ∧
    (pos.current_price - pos.high_since_entry) / pos.high_since_entry ≤
      -bot.trailing_stop_pct ∧
    0 < pos.unrealized_pnl_pct / 100)

/-- The reasons accumulated from the three rule checks of
check_exit_conditions, in source order (bot.py lines 227-242).  The
numeric interpolation of the Python f-strings is dropped. -/
def exitRuleReasons (bot : OpenClawBot) (pos : Position) : List String :=
  (if stopFired bot pos then ["Stop loss triggered"] else []) ++
  (if takeFired bot pos then ["Take profit triggered"] else []) ++
  (if trailFired bot pos then ["Trailing stop"] else [])

/-- The body of check_exit_conditions for one held position (bot.py lines
221-255).  tech is the Signal that analyze_symbol would return for the
held symbol; the code consults it only when no risk rule fired. -/
def check_exit_pos (bot : OpenClawBot) (symbol : String) (pos : Position)
    (tech : Signal) : Option Signal :=
  let ruleFired := stopFired bot pos || takeFired bot pos || trailFired bot pos
  let reasons :=
    if ruleFired then exitRuleReasons bot pos
    else if tech.action = "SELL" ∧ bot.min_signal_strength ≤ tech.strength then
      exitRuleReasons bot pos ++ tech.reasons
    else exitRuleReasons bot pos
  let should_exit :=
    ruleFired || (tech.action = "SELL" ∧ bot.min_signal_strength ≤ tech.strength : Bool)
  if should_exit then
    some { action := "SELL", symbol := symbol, strength := 5, reasons := reasons,
           price := some pos.current_price, asset_type := pos.asset_type }
  else none

/-- OpenClawBot.check_exit_conditions (bot.py lines 217-257), with the
Signal Engine output for each held symbol supplied by the oracle tech
(symbol and asset type to Signal), standing for analyze_symbol over the
external indicator table. -/
def check_exit_conditions (bot : OpenClawBot) (p : Portfolio)
    (tech : String → String → Signal) : List Signal :=
  p.positions.filterMap (fun e => check_exit_pos bot e.1 e.2 (tech e.1 e.2.asset_type))

/-- Rounding of Python round(x, 4) on a rational: nearest multiple of
1/10000, ties to the even integer numerator (banker rounding). -/
def pyRoundInt (x : ℚ) : ℤ :=
  let f := Int.floor x
  let frac := x - f
  if frac < 1 / 2 then f
  else if 1 / 2 < frac then f + 1
  else if f % 2 = 0 then f else f + 1

/-- round(quantity, 4) from bot.py line 272. -/
def pyRound4 (x : ℚ) : ℚ := (pyRoundInt (x * 10000) : ℚ) / 10000

/-- OpenClawBot.calculate_position_size (bot.py lines 259-274). -/
def calculate_position_size (bot : OpenClawBot) (p : Portfolio) (price : ℚ) : ℚ :=
  let max_position_value := p.total_value * bot.max_position_pct
  let max_spend := min max_position_value (p.cash * (9 / 10))
  if max_spend < price then 0
  else
    let quantity := pyRound4 (max_spend / price)
    if 10 ≤ quantity * price then quantity else 0

/-- The reason string passed to the ledger by execute_signals (bot.py
lines 347 and 369). -/
def joinedReasons (sig : Signal) : String :=
  String.intercalate " | " (sig.reasons.take 3)

/-- The sell phase of execute_signals (bot.py lines 342-351): every SELL
signal on a held symbol is executed, whole position, at the signal
price. -/
def execSells (p : Portfolio) (sells : List Signal) (now : String) : Portfolio :=
  match sells with
  | [] => p
  | sig :: rest =>
      let p1 :=
        if (lookupPos p.positions sig.symbol).isSome then
          (p.sell sig.symbol none sig.price (joinedReasons sig) now).2
        else p
      execSells p1 rest now

/-- The buy phase of execute_signals (bot.py lines 354-373): stops at the
max-positions cap, skips zero-sized orders, otherwise buys the computed
quantity at the signal price.  A BUY signal produced by the scan always
carries a price; getD 0 covers the none case the Python code never
reaches on this path. -/
def execBuys (bot : OpenClawBot) (p : Portfolio) (buys : List Signal)
    (now : String) : Portfolio :=
  match buys with
  | [] => p
  | sig :: rest =>
      if bot.max_positions ≤ p.num_positions then p
      else
        let quantity := calculate_position_size bot p (sig.price.getD 0)
        if quantity ≤ 0 then execBuys bot p rest now
        else
          execBuys bot
            (p.buy sig.symbol quantity (sig.price.getD 0) sig.asset_type
              (joinedReasons sig) now).2 rest now

/-- OpenClawBot.execute_signals (bot.py lines 334-375): with auto_execute
false nothing runs; otherwise all sells are committed first and the buys
are evaluated against the post-sell ledger. -/
def execute_signals (bot : OpenClawBot) (p : Portfolio) (buys sells : List Signal)
    (auto_execute : Bool) (now : String) : Portfolio :=
  if auto_execute then execBuys bot (execSells p sells now) buys now else p

/-- A simulated US-Eastern clock reading for the scheduler
(src/live_trader.py).  day counts whole days with day mod 7 = 0 on Monday,
matching Python weekday(); the remaining fields are the time of day. -/
structure ETTime where
  day : ℕ
  hour : ℕ
  minute : ℕ
  second : ℕ
  microsecond : ℕ
deriving DecidableEq

/-- Python datetime.weekday(): 0 = Monday ... 6 = Sunday. -/
def ETTime.weekday (t : ETTime) : ℕ := t.day % 7

/-- is_weekday (live_trader.py lines 66-70). -/
def is_weekday (t : ETTime) : Bool := decide (t.weekday < 5)

/-- A time of day collapsed to microseconds, so that comparisons of two
datetimes on the same date agree with the Python comparison. -/
def todUS (hour minute second microsecond : ℕ) : ℕ :=
  ((hour * 60 + minute) * 60 + second) * 1000000 + microsecond

/-- The time-of-day of a clock reading, in microseconds. -/
def ETTime.tod (t : ETTime) : ℕ := todUS t.hour t.minute t.second t.microsecond

/-- is_market_hours (live_trader.py lines 73-87).  now.replace(hour=H,
minute=M, second=0) zeroes the second but keeps the microsecond, hence
the microsecond term in both bounds. -/
def is_market_hours (extended : Bool) (t : ETTime) : Bool :=
  if !is_weekday t then false
  else
    let oh := if extended then 8 else 9
    let om := if extended then 0 else 30
    let ch := if extended then 18 else 16
    decide (todUS oh om 0 t.microsecond ≤ t.tod ∧
            t.tod ≤ todUS ch 0 0 t.microsecond)

/-- The weekend-skipping loop of time_until_market_open (live_trader.py
lines 104-106), with fuel bounding the at most two iterations the
calendar permits. -/
def nextWeekdayFrom : ℕ → ℕ → ℕ
  | 0, d => d
  | fuel + 1, d => if 5 ≤ d % 7 then nextWeekdayFrom fuel (d + 1) else d

/-- The day on which time_until_market_open (live_trader.py lines 90-109)
places the next market open: today when the open lies ahead on a weekday,
otherwise the next non-weekend day.  today_open zeroes both second and
microsecond. -/
def time_until_market_open_day (extended : Bool) (t : ETTime) : ℕ :=
  let oh := if extended then 8 else 9
  let om := if extended then 0 else 30
  if t.tod < todUS oh om 0 0 ∧ is_weekday t = true then t.day
  else nextWeekdayFrom 7 (t.day + 1)

/-- The branch the main scheduler loop takes on one iteration
(live_trader.py lines 279-361), as a function of the observed clock. -/
inductive SchedBranch where
  | marketCycle
  | cryptoCycle
  | closedWait
deriving DecidableEq

/-- Branch selection of the scheduler loop (live_trader.py lines 280-332):
full cycle during market hours, crypto-only cycle after hours on a
weekday when crypto_247 is set, otherwise the closed-market wait. -/
def scheduler_branch (crypto247 extended : Bool) (t : ETTime) : SchedBranch :=
  if is_market_hours extended t then .marketCycle
  else if crypto247 && is_weekday t then .cryptoCycle
  else .closedWait

/-- Orchestrator cycles run by one loop iteration.  The closed-market
wait branch runs cycles only inside its crypto_247-guarded inner loop
(live_trader.py lines 351-361); their count there is the abstract
closedWaitCryptoCycles. -/
def iteration_cycles (crypto247 extended : Bool) (t : ETTime)
    (closedWaitCryptoCycles : ℕ) : ℕ :=
  match scheduler_branch crypto247 extended t with
  | .marketCycle => 1
  | .cryptoCycle => 1
  | .closedWait => if crypto247 then closedWaitCryptoCycles else 0

/-- A sequence of update_prices calls: each entry carries the price map
and the timestamp of one call. -/
def applyUpdates (p : Portfolio) (pms : List ((String → Option ℚ) × String)) :
    Portfolio :=
  pms.foldl (fun q pm => q.update_prices pm.1 pm.2) p

/-- States reachable under the amended C1 hypotheses: non-negative cash,
and every held position with non-negative quantity and current price. -/
def GoodState (p : Portfolio) : Prop :=
  0 ≤ p.cash ∧ ∀ e ∈ p.positions, 0 ≤ e.2.quantity ∧ 0 ≤ e.2.current_price

/-- A ledger with one two-share position and 50 in cash, for the C2
witness. -/
def rejectSamplePortfolio : Portfolio :=
  { starting_cash := 100, cash := 50,
    positions := [("A",
      { symbol := "A", quantity := 2, entry_price := 10, entry_date := "t",
        asset_type := "stock", current_price := 10, high_since_entry := 10 })],
    trade_history := [], created_at := "t", last_updated := "t" }

/-- A ledger holding two shares of A at entry price 100, for the C3
witness. -/
def reavgSamplePortfolio : Portfolio :=
  { starting_cash := 1000, cash := 1000,
    positions := [("A",
      { symbol := "A", quantity := 2, entry_price := 100, entry_date := "t",
        asset_type := "stock", current_price := 100, high_since_entry := 100 })],
    trade_history := [], created_at := "t", last_updated := "t" }

/-- A bot with the default configuration values of bot.py lines 54-59,
for the C4 counterexample. -/
def sizingBot : OpenClawBot :=
  { max_position_pct := 15 / 100, max_positions := 12, stop_loss_pct := 5 / 100,
    take_profit_pct := 10 / 100, trailing_stop_pct := 3 / 100,
    min_signal_strength := 2 }

/-- An all-cash ledger worth 1000, for the C4 counterexample. -/
def sizingPortfolio : Portfolio :=
  { starting_cash := 1000, cash := 1000, positions := [], trade_history := [],
    created_at := "t", last_updated := "t" }

/-- A bot with the default risk thresholds, for the C5 scenario. -/
def scenarioBBot : OpenClawBot :=
  { max_position_pct := 15 / 100, max_positions := 12, stop_loss_pct := 5 / 100,
    take_profit_pct := 10 / 100, trailing_stop_pct := 3 / 100,
    min_signal_strength := 2 }

/-- The Scenario B position: bought at 100, now priced 94. -/
def scenarioBPos : Position :=
  { symbol := "XYZ", quantity := 1, entry_price := 100, entry_date := "t",
    asset_type := "stock", current_price := 94, high_since_entry := 100 }

/-- A neutral Signal Engine answer, for the C5 scenario. -/
def holdSig : Signal :=
  { action := "HOLD", symbol := "XYZ", strength := 0, reasons := [],
    price := none, asset_type := "stock" }

/-- The ledger reached from 100000 cash by buying one share of A at 100
and then re-averaging with one more share at 120, for the C9
counterexample. -/
def reavgHighPortfolio : Portfolio :=
  applyOps (Portfolio.init 100000 "t")
    [Op.buy "A" 1 100 "stock" "r" "t1", Op.buy "A" 1 120 "stock" "r" "t2"]

/-- A one-position ledger for the C9 witness. -/
def highSamplePortfolio : Portfolio :=
  { starting_cash := 1000, cash := 1000,
    positions := [("A",
      { symbol := "A", quantity := 1, entry_price := 100, entry_date := "t",
        asset_type := "stock", current_price := 100, high_since_entry := 100 })],
    trade_history := [], created_at := "t", last_updated := "t" }

/-! ### Association list lemmas -/

theorem lookupPos_mem {ps : List (String × Position)} {sym : String} {pos : Position}
    (h : lookupPos ps sym = some pos) : (sym, pos) ∈ ps := by
  induction ps with
  | nil => simp [lookupPos] at h
  | cons e rest ih =>
      rw [lookupPos] at h
      split at h
      · rename_i heq
        injection h with h2
        have he : (sym, pos) = e := by rw [← heq, ← h2]
        rw [he]
        exact List.mem_cons_self e rest
      · exact List.mem_cons_of_mem e (ih h)

theorem mem_setPos {ps : List (String × Position)} {sym : String} {pos : Position}
    {e : String × Position} (h : e ∈ setPos ps sym pos) :
    e = (sym, pos) ∨ e ∈ ps := by
  induction ps with
  | nil =>
      rw [setPos] at h
      rcases List.mem_singleton.mp h with rfl
      exact Or.inl rfl
  | cons f rest ih =>
      rw [setPos] at h
      split at h
      · rcases List.mem_cons.mp h with rfl | hrest
        · rename_i heq
          left
          rw [← heq]
        · exact Or.inr (List.mem_cons_of_mem f hrest)
      · rcases List.mem_cons.mp h with h1 | hrest
        · rw [h1]
          exact Or.inr (List.mem_cons_self f rest)
        · rcases ih hrest with h1 | h2
          · exact Or.inl h1
          · exact Or.inr (List.mem_cons_of_mem f h2)

theorem mem_removePos {ps : List (String × Position)} {sym : String}
    {e : String × Position} (h : e ∈ removePos ps sym) : e ∈ ps := by
  induction ps with
  | nil => simp [removePos] at h
  | cons f rest ih =>
      rw [removePos] at h
      split at h
      · exact List.mem_cons_of_mem f h
      · rcases List.mem_cons.mp h with h1 | hrest
        · rw [h1]
          exact List.mem_cons_self f rest
        · exact List.mem_cons_of_mem f (ih hrest)

theorem lookupPos_setPos (ps : List (String × Position)) (sym : String)
    (pos : Position) : lookupPos (setPos ps sym pos) sym = some pos := by
  induction ps with
  | nil => simp [setPos, lookupPos]
  | cons f rest ih =>
      rw [setPos]
      split
      · rename_i heq
        rw [lookupPos]
        simp [heq]
      · rename_i hne
        rw [lookupPos]
        simp only [if_neg hne]
        exact ih

theorem lookupPos_append_single (ps : List (String × Position)) (sym : String)
    (pos : Position) (h : lookupPos ps sym = none) :
    lookupPos (ps ++ [(sym, pos)]) sym = some pos := by
  induction ps with
  | nil => simp [lookupPos]
  | cons f rest ih =>
      rw [lookupPos] at h
      rw [List.cons_append, lookupPos]
      split at h
      · exact absurd h (by simp)
      · rename_i hne
        rw [if_neg hne]
        exact ih h

theorem lookupPos_map (ps : List (String × Position)) (sym : String)
    (f : String → Position → Position) :
    lookupPos (ps.map (fun e => (e.1, f e.1 e.2))) sym =
      (lookupPos ps sym).map (fun pos => f sym pos) := by
  induction ps with
  | nil => simp [lookupPos]
  | cons e rest ih =>
      rw [List.map_cons, lookupPos, lookupPos]
      by_cases heq : e.1 = sym
      · rw [if_pos heq, if_pos heq, heq]
        rfl
      · rw [if_neg heq, if_neg heq]
        exact ih

/-! ### Cash and position-sign invariant (claim C1) -/

theorem goodState_buy (p : Portfolio) (symbol : String) (quantity price : ℚ)
    (asset_type reason now : String) (hp : GoodState p)
    (hq : 0 < quantity) (hpr : 0 < price) :
    GoodState (p.buy symbol quantity price asset_type reason now).2 := by
  obtain ⟨hcash, hpos⟩ := hp
  rw [Portfolio.buy]
  simp only
  split
  · exact ⟨hcash, hpos⟩
  · rename_i hle
    constructor
    · have := not_lt.mp hle
      simp only
      linarith
    · intro e he
      simp only at he
      cases hfind : lookupPos p.positions symbol with
      | none =>
          rw [hfind] at he
          rcases List.mem_append.mp he with h1 | h2
          · exact hpos e h1
          · rcases List.mem_singleton.mp h2 with rfl
            exact ⟨le_of_lt hq, le_of_lt hpr⟩
      | some existing =>
          rw [hfind] at he
          rcases mem_setPos he with rfl | h2
          · refine ⟨?_, le_of_lt hpr⟩
            have h0 := (hpos _ (lookupPos_mem hfind)).1
            simp only
            linarith
          · exact hpos e h2

theorem goodState_sell (p : Portfolio) (symbol : String)
    (quantity0 price0 : Option ℚ) (reason now : String) (hp : GoodState p)
    (hq0 : ∀ q, quantity0 = some q → 0 ≤ q)
    (hpr0 : ∀ pr, price0 = some pr → 0 ≤ pr) :
    GoodState (p.sell symbol quantity0 price0 reason now).2 := by
  obtain ⟨hcash, hpos⟩ := hp
  cases hfind : lookupPos p.positions symbol with
  | none =>
      rw [Portfolio.sell, hfind]
      exact ⟨hcash, hpos⟩
  | some pos =>
      rw [Portfolio.sell, hfind]
      simp only
      split
      · exact ⟨hcash, hpos⟩
      · rename_i hqle
        have hposmem := hpos _ (lookupPos_mem hfind)
        have hq : 0 ≤ quantity0.getD pos.quantity := by
          cases quantity0 with
          | none => exact hposmem.1
          | some q => exact hq0 q rfl
        have hprice : 0 ≤ price0.getD pos.current_price := by
          cases price0 with
          | none => exact hposmem.2
          | some pr => exact hpr0 pr rfl
        constructor
        · have hmul := mul_nonneg hq hprice
          simp only
          linarith
        · intro e he
          simp only at he
          split at he
          · exact hpos e (mem_removePos he)
          · rename_i hlt
            rcases mem_setPos he with rfl | h2
            · refine ⟨?_, hposmem.2⟩
              have := not_le.mp hlt
              simp only
              linarith
            · exact hpos e h2

theorem validOp_opt_nonneg {x0 : Option ℚ}
    (h : (match x0 with
          | some x => decide ((0 : ℚ) ≤ x)
          | none => true) = true) :
    ∀ x, x0 = some x → 0 ≤ x := by
  intro x hx
  subst hx
  simpa using h

theorem goodState_applyOp (p : Portfolio) (op : Op) (hp : GoodState p)
    (hv : validOp op = true) : GoodState (applyOp p op) := by
  cases op with
  | buy symbol quantity price asset_type reason now =>
      simp only [validOp, Bool.and_eq_true, decide_eq_true_eq] at hv
      exact goodState_buy p symbol quantity price asset_type reason now hp hv.1 hv.2
  | sell symbol quantity0 price0 reason now =>
      simp only [validOp, Bool.and_eq_true] at hv
      exact goodState_sell p symbol quantity0 price0 reason now hp
        (validOp_opt_nonneg hv.1) (validOp_opt_nonneg hv.2)

theorem goodState_applyOps (ops : List Op) : ∀ p, GoodState p →
    ops.all validOp = true → GoodState (applyOps p ops) := by
  induction ops with
  | nil => exact fun p hp _ => hp
  | cons op rest ih =>
      intro p hp hall
      rw [List.all_cons, Bool.and_eq_true] at hall
      exact ih (applyOp p op) (goodState_applyOp p op hp hall.1) hall.2

/-- C1 counterexample: both operations satisfy the hypotheses of the claim
(the buy has positive quantity and price, the sell a non-negative sale
price of 5), yet after the sequence the cash balance is negative: the sell
passes a negative quantity, which Portfolio.sell never rejects, and its
negative proceeds drive cash from 0 to -5. -/
theorem cash_can_go_negative :
    claimOp (Op.buy "AAPL" 100 100 "stock" "r" "t0") = true ∧
    claimOp (Op.sell "AAPL" (some (-1)) (some 5) "r" "t1") = true ∧
    (applyOps (Portfolio.init 10000 "t")
        [Op.buy "AAPL" 100 100 "stock" "r" "t0",
         Op.sell "AAPL" (some (-1)) (some 5) "r" "t1"]).cash < 0 := by
  refine ⟨by decide, by decide, ?_⟩
  norm_num [applyOps, applyOp, Portfolio.buy, Portfolio.sell, Portfolio.init,
    lookupPos, setPos, removePos, Position.make]

/-- C1 (amended): for every sequence of buy and sell operations in which
every buy is called with positive quantity and price and every sell with a
non-negative sale price and, when one is given explicitly, a non-negative
quantity, the cash balance stays non-negative from any non-negative
starting cash; and total_value always equals cash plus the sum over open
positions of quantity times current_price. -/
theorem c1_cash_nonneg_total_value (ops : List Op) (sc : ℚ) (c0 : String)
    (hops : ops.all validOp = true) (hsc : 0 ≤ sc) :
    0 ≤ (applyOps (Portfolio.init sc c0) ops).cash ∧
    ∀ q : Portfolio, q.total_value =
      q.cash + (q.positions.map (fun e => e.2.quantity * e.2.current_price)).sum := by
  constructor
  · exact (goodState_applyOps ops (Portfolio.init sc c0)
      ⟨hsc, fun e he => nomatch he⟩ hops).1
  · intro q
    rfl

/-- C1 witness: the amended invariant applied to a concrete two-operation
sequence from a 10000 starting balance. -/
theorem c1_cash_nonneg_total_value_witness :
    0 ≤ (applyOps (Portfolio.init 10000 "t")
        [Op.buy "AAPL" 2 50 "stock" "r" "t0",
         Op.sell "AAPL" (some 1) none "r" "t1"]).cash ∧
    ∀ q : Portfolio, q.total_value =
      q.cash + (q.positions.map (fun e => e.2.quantity * e.2.current_price)).sum :=
  c1_cash_nonneg_total_value
    [Op.buy "AAPL" 2 50 "stock" "r" "t0", Op.sell "AAPL" (some 1) none "r" "t1"]
    10000 "t" (by decide) (by norm_num)

/-! ### Rejected operations (claim C2) -/

/-- C2: a buy whose cost exceeds available cash, a sell on a symbol with
no open position, and a sell whose explicit quantity exceeds the held
quantity all return a false success flag paired with a message and leave
the entire ledger (cash, positions, trade_history) unchanged. -/
theorem rejected_operations_no_mutation (p : Portfolio) (symbol : String)
    (quantity price : ℚ) (asset_type reason now : String) (q0 pr0 : Option ℚ) :
    (p.cash < quantity * price →
       (p.buy symbol quantity price asset_type reason now).1.1 = false ∧
       (p.buy symbol quantity price asset_type reason now).2 = p) ∧
    (lookupPos p.positions symbol = none →
       (p.sell symbol q0 pr0 reason now).1.1 = false ∧
       (p.sell symbol q0 pr0 reason now).2 = p) ∧
    (∀ pos q, lookupPos p.positions symbol = some pos → q0 = some q →
       pos.quantity < q →
       (p.sell symbol q0 pr0 reason now).1.1 = false ∧
       (p.sell symbol q0 pr0 reason now).2 = p) := by
  refine ⟨fun hc => ?_, fun hn => ?_, fun pos q hfind hq hlt => ?_⟩
  · simp only [Portfolio.buy]
    rw [if_pos hc]
    exact ⟨rfl, rfl⟩
  · rw [Portfolio.sell, hn]
    exact ⟨rfl, rfl⟩
  · subst hq
    rw [Portfolio.sell, hfind]
    simp only [Option.getD_some]
    rw [if_pos hlt]
    exact ⟨rfl, rfl⟩

/-- C2 witness: the three rejection cases at concrete inputs. -/
theorem rejected_operations_no_mutation_witness :
    ((rejectSamplePortfolio.buy "B" 10 10 "stock" "r" "t").1.1 = false ∧
     (rejectSamplePortfolio.buy "B" 10 10 "stock" "r" "t").2 = rejectSamplePortfolio) ∧
    ((rejectSamplePortfolio.sell "C" none none "r" "t").1.1 = false ∧
     (rejectSamplePortfolio.sell "C" none none "r" "t").2 = rejectSamplePortfolio) ∧
    ((rejectSamplePortfolio.sell "A" (some 3) none "r" "t").1.1 = false ∧
     (rejectSamplePortfolio.sell "A" (some 3) none "r" "t").2 = rejectSamplePortfolio) :=
  ⟨(rejected_operations_no_mutation rejectSamplePortfolio "B" 10 10 "stock" "r" "t"
      none none).1 (by norm_num [rejectSamplePortfolio]),
   (rejected_operations_no_mutation rejectSamplePortfolio "C" 2 2 "stock" "r" "t"
      none none).2.1 rfl,
   (rejected_operations_no_mutation rejectSamplePortfolio "A" 2 2 "stock" "r" "t"
      (some 3) none).2.2
     { symbol := "A", quantity := 2, entry_price := 10, entry_date := "t",
       asset_type := "stock", current_price := 10, high_since_entry := 10 }
     3 rfl rfl (by norm_num)⟩

/-! ### Re-averaging buys (claim C3) -/

theorem weighted_avg_between (a b x y : ℚ) (ha : 0 < a) (hb : 0 < b) :
    min x y ≤ (a * x + b * y) / (a + b) ∧ (a * x + b * y) / (a + b) ≤ max x y := by
  have hab : 0 < a + b := by linarith
  constructor
  · rw [le_div_iff₀ hab]
    nlinarith [min_le_left x y, min_le_right x y]
  · rw [div_le_iff₀ hab]
    nlinarith [le_max_left x y, le_max_right x y]

/-- C3: a successful buy into an already-held symbol leaves a position
whose quantity is the sum of old and bought quantity, whose entry price is
the volume-weighted average and hence lies between the old entry price and
the trade price, and whose current price is the trade price. -/
theorem buy_reaverage_ok (p : Portfolio) (symbol : String) (existing : Position)
    (quantity price : ℚ) (asset_type reason now : String)
    (hfind : lookupPos p.positions symbol = some existing)
    (hq0 : 0 < existing.quantity) (hq : 0 < quantity) (hpr : 0 < price)
    (hcash : quantity * price ≤ p.cash) :
    ∃ pos1,
      lookupPos (p.buy symbol quantity price asset_type reason now).2.positions symbol
        = some pos1 ∧
      pos1.quantity = existing.quantity + quantity ∧
      pos1.entry_price =
        (existing.quantity * existing.entry_price + quantity * price) /
          (existing.quantity + quantity) ∧
      min existing.entry_price price ≤ pos1.entry_price ∧
      pos1.entry_price ≤ max existing.entry_price price ∧
      pos1.current_price = price := by
  have hif := not_lt.mpr hcash
  have hbet := weighted_avg_between existing.quantity quantity
    existing.entry_price price hq0 hq
  have hbuy : (p.buy symbol quantity price asset_type reason now).2.positions
      = setPos p.positions symbol
          { existing with
            quantity := existing.quantity + quantity,
            entry_price := (existing.quantity * existing.entry_price + quantity * price) /
              (existing.quantity + quantity),
            current_price := price } := by
    simp only [Portfolio.buy]
    rw [if_neg hif, hfind]
  refine ⟨{ existing with
      quantity := existing.quantity + quantity,
      entry_price := (existing.quantity * existing.entry_price + quantity * price) /
        (existing.quantity + quantity),
      current_price := price }, ?_, rfl, rfl, hbet.1, hbet.2, rfl⟩
  rw [hbuy, lookupPos_setPos]

/-- C3 witness: re-averaging a two-share position at 100 with one more
share at 130. -/
theorem buy_reaverage_ok_witness :
    ∃ pos1,
      lookupPos (reavgSamplePortfolio.buy "A" 1 130 "stock" "r" "t").2.positions "A"
        = some pos1 ∧
      pos1.quantity = 2 + 1 ∧
      pos1.entry_price = (2 * 100 + 1 * 130) / (2 + 1) ∧
      min 100 130 ≤ pos1.entry_price ∧
      pos1.entry_price ≤ max 100 130 ∧
      pos1.current_price = 130 :=
  buy_reaverage_ok reavgSamplePortfolio "A"
    { symbol := "A", quantity := 2, entry_price := 100, entry_date := "t",
      asset_type := "stock", current_price := 100, high_since_entry := 100 }
    1 130 "stock" "r" "t" rfl (by norm_num) (by norm_num) (by norm_num)
    (by norm_num [reavgSamplePortfolio])

/-! ### Position sizing (claim C4) -/

/-- C4 counterexample: with total_value = cash = 1000 and
max_position_pct = 0.15, sizing an entry priced 200 returns 0 even though
the rounded quantity 0.75 has notional 150, far above the 10 minimum:
the early return for max_spend < price (bot.py lines 264-265) makes
"returns 0 exactly when the notional is below 10" false. -/
theorem position_size_zero_despite_notional :
    calculate_position_size sizingBot sizingPortfolio 200 = 0 ∧
    pyRound4 (min (sizingPortfolio.total_value * sizingBot.max_position_pct)
        (sizingPortfolio.cash * (9 / 10)) / 200) = 3 / 4 ∧
    (10 : ℚ) ≤ 3 / 4 * 200 := by
  refine ⟨?_, ?_, by norm_num⟩
  · norm_num [calculate_position_size, Portfolio.total_value,
      Portfolio.total_positions_value, sizingBot, sizingPortfolio, min_def]
  · norm_num [Portfolio.total_value, Portfolio.total_positions_value, sizingBot,
      sizingPortfolio, min_def, pyRound4, pyRoundInt]

/-- C4 (amended): calculate_position_size returns the rounded quantity
max_spend / price with max_spend = min(total_value x max_position_pct,
cash x 0.9), except that it returns 0 exactly when max_spend < price
(whole-affordability early return) or the rounded notional falls below
the minimum order value of 10; in the Scenario A configuration
(total_value = cash = 10000, max_position_pct = 0.15, price 100) it
returns 15. -/
theorem position_size_characterization (bot : OpenClawBot) (p : Portfolio)
    (price : ℚ) :
    (calculate_position_size bot p price = 0 ↔
       min (p.total_value * bot.max_position_pct) (p.cash * (9 / 10)) < price ∨
       pyRound4 (min (p.total_value * bot.max_position_pct) (p.cash * (9 / 10))
           / price) * price < 10) ∧
    (calculate_position_size bot p price ≠ 0 →
       calculate_position_size bot p price =
         pyRound4 (min (p.total_value * bot.max_position_pct)
           (p.cash * (9 / 10)) / price)) ∧
    calculate_position_size
      { max_position_pct := 15 / 100, max_positions := 12,
        stop_loss_pct := 5 / 100, take_profit_pct := 10 / 100,
        trailing_stop_pct := 3 / 100, min_signal_strength := 2 }
      { starting_cash := 10000, cash := 10000, positions := [],
        trade_history := [], created_at := "t", last_updated := "t" } 100
      = 15 := by
  refine ⟨⟨fun h0 => ?_, fun h => ?_⟩, fun hne => ?_, ?_⟩
  · by_cases hms : min (p.total_value * bot.max_position_pct) (p.cash * (9 / 10))
        < price
    · exact Or.inl hms
    · right
      simp only [calculate_position_size] at h0
      rw [if_neg hms] at h0
      by_cases h10 : (10 : ℚ) ≤ pyRound4 (min (p.total_value * bot.max_position_pct)
          (p.cash * (9 / 10)) / price) * price
      · rw [if_pos h10] at h0
        rw [h0, zero_mul] at h10
        linarith
      · exact not_le.mp h10
  · rcases h with hms | h10
    · simp only [calculate_position_size]
      rw [if_pos hms]
    · simp only [calculate_position_size]
      split
      · rfl
      · rw [if_neg (not_le.mpr h10)]
  · simp only [calculate_position_size] at hne ⊢
    split at hne
    · exact absurd rfl hne
    · rename_i h1
      split at hne
      · rename_i h2
        rw [if_neg h1, if_pos h2]
      · exact absurd rfl hne
  · norm_num [calculate_position_size, Portfolio.total_value,
      Portfolio.total_positions_value, min_def, pyRound4, pyRoundInt]

/-! ### Exit policy (claims C5) -/

/-- C5: the stop loss fires whenever the pnl fraction is at most
-stop_loss_pct and yields a forced SELL listing the stop-loss reason; the
trailing stop can fire only while the position is profitable; the
technical signal is consulted only when no risk rule fired (the result is
then independent of the Signal Engine answer); every produced exit signal
is a SELL of strength 5 whose reasons concatenate exactly the triggered
rules; and the Scenario B position (entry 100, current 94, stop loss 5
percent) trips the stop loss. -/
theorem exit_policy_ok (bot : OpenClawBot) (symbol : String) (pos : Position)
    (tech : Signal) :
    (pos.unrealized_pnl_pct / 100 ≤ -bot.stop_loss_pct →
       ∃ sig, check_exit_pos bot symbol pos tech = some sig ∧
         sig.action = "SELL" ∧ "Stop loss triggered" ∈ sig.reasons) ∧
    (pos.unrealized_pnl_pct / 100 ≤ 0 → trailFired bot pos = false) ∧
    ((stopFired bot pos || takeFired bot pos || trailFired bot pos) = true →
       ∀ tech2, check_exit_pos bot symbol pos tech =
         check_exit_pos bot symbol pos tech2) ∧
    (∀ sig, check_exit_pos bot symbol pos tech = some sig →
       sig.action = "SELL" ∧ sig.strength = 5 ∧
       sig.reasons = exitRuleReasons bot pos ++
         (if (stopFired bot pos || takeFired bot pos || trailFired bot pos) = true
          then [] else tech.reasons)) ∧
    check_exit_pos scenarioBBot "XYZ" scenarioBPos holdSig =
      some { action := "SELL", symbol := "XYZ", strength := 5,
             reasons := ["Stop loss triggered"], price := some 94,
             asset_type := "stock" } := by
  refine ⟨fun hstop => ?_, fun hnp => ?_, fun hrule tech2 => ?_,
    fun sig hsig => ?_, ?_⟩
  · have hsf : stopFired bot pos = true := by
      rw [stopFired]
      exact decide_eq_true hstop
    refine ⟨{ action := "SELL", symbol := symbol, strength := 5,
              reasons := exitRuleReasons bot pos,
              price := some pos.current_price, asset_type := pos.asset_type },
            ?_, rfl, ?_⟩
    · simp [check_exit_pos, hsf]
    · simp [exitRuleReasons, hsf]
  · rw [trailFired]
    apply decide_eq_false
    rintro ⟨h1, h2, h3⟩
    linarith
  · simp [check_exit_pos, hrule]
  · cases hb : (stopFired bot pos || takeFired bot pos || trailFired bot pos) with
    | true =>
        simp only [check_exit_pos, hb, Bool.true_or, if_true] at hsig
        cases Option.some.inj hsig
        simp
    | false =>
        simp only [check_exit_pos, hb, Bool.false_or] at hsig
        split at hsig
        · rename_i htc
          have hcond := of_decide_eq_true htc
          cases Option.some.inj hsig
          refine ⟨rfl, rfl, ?_⟩
          simp [hcond]
        · exact Option.noConfusion hsig
  · norm_num [check_exit_pos, exitRuleReasons, stopFired, takeFired, trailFired,
      scenarioBBot, scenarioBPos, holdSig, Position.unrealized_pnl_pct,
      Position.unrealized_pnl, Position.market_value, Position.cost_basis]

/-! ### Signal Engine final decision (claim C6) -/

/-- C6: with positive minimum signal strength and the net strength the
difference of the accumulated buy and sell strengths, the engine returns
BUY carrying the buy strength and reasons when net is at least the
minimum, SELL carrying the sell strength and reasons when net is at most
its negation, and otherwise HOLD carrying the absolute net with the
two-sided summary reasons, falling back to the no-signal message when
neither side fired; an exact tie yields HOLD. -/
theorem analyze_decision_ok (minS buyS sellS : ℚ) (buyR sellR : List String)
    (symbol : String) (price : ℚ) (atype : String) (hmin : 0 < minS) :
    (minS ≤ buyS - sellS →
       analyze_symbol_decision minS buyS sellS buyR sellR symbol price atype =
         { action := "BUY", symbol := symbol, strength := buyS, reasons := buyR,
           price := some price, asset_type := atype }) ∧
    (buyS - sellS ≤ -minS →
       analyze_symbol_decision minS buyS sellS buyR sellR symbol price atype =
         { action := "SELL", symbol := symbol, strength := sellS, reasons := sellR,
           price := some price, asset_type := atype }) ∧
    (|buyS - sellS| < minS →
       analyze_symbol_decision minS buyS sellS buyR sellR symbol price atype =
         { action := "HOLD", symbol := symbol, strength := |buyS - sellS|,
           reasons := holdReasons buyR sellR, price := some price,
           asset_type := atype }) ∧
    (buyR = [] → sellR = [] → holdReasons buyR sellR = ["No significant signals"]) ∧
    (buyS = sellS →
       (analyze_symbol_decision minS buyS sellS buyR sellR symbol price atype).action
         = "HOLD") := by
  refine ⟨fun hb => ?_, fun hs => ?_, fun hh => ?_, fun hbe hse => ?_, fun hties => ?_⟩
  · simp only [analyze_symbol_decision]
    rw [if_pos hb]
  · simp only [analyze_symbol_decision]
    rw [if_neg (not_le.mpr (by linarith)), if_pos hs]
  · obtain ⟨hlt1, hlt2⟩ := abs_lt.mp hh
    simp only [analyze_symbol_decision]
    rw [if_neg (not_le.mpr hlt2), if_neg (not_le.mpr hlt1)]
  · subst hbe
    subst hse
    simp [holdReasons]
  · have hnet : buyS - sellS = 0 := by rw [hties, sub_self]
    simp only [analyze_symbol_decision, hnet]
    rw [if_neg (by linarith), if_neg (by linarith)]

/-- C6 witness: a net strength of 4 against a minimum of 2 yields the BUY
signal carrying the buy strength and reasons. -/
theorem analyze_decision_ok_witness :
    analyze_symbol_decision 2 4 0 ["RSI oversold"] [] "AAPL" 100 "stock" =
      { action := "BUY", symbol := "AAPL", strength := 4,
        reasons := ["RSI oversold"], price := some 100, asset_type := "stock" } :=
  (analyze_decision_ok 2 4 0 ["RSI oversold"] [] "AAPL" 100 "stock"
    (by norm_num)).1 (by norm_num)

/-! ### Snapshot round trip (claim C7) -/

theorem from_dict_to_dict (pos : Position) :
    Position.from_dict (Position.to_dict pos) = pos := rfl

theorem map_from_to_dict (l : List (String × Position)) :
    (l.map (fun e => (e.1, e.2.to_dict))).map
      (fun e => (e.1, Position.from_dict e.2)) = l := by
  induction l with
  | nil => rfl
  | cons e rest ih =>
      rw [List.map_cons, List.map_cons, ih]
      rfl

/-- C7: loading the state dictionary written by save reproduces the same
cash balance, the same positions (the same symbols in the same order,
each with identical quantity, entry_price, current_price and
high_since_entry), and the same trade history. -/
theorem save_load_roundtrip (p : Portfolio) (d : ℚ) (now : String) :
    (Portfolio.load_state (Portfolio.save_state p) d now).cash = p.cash ∧
    (Portfolio.load_state (Portfolio.save_state p) d now).positions = p.positions ∧
    (Portfolio.load_state (Portfolio.save_state p) d now).trade_history
      = p.trade_history := by
  refine ⟨rfl, ?_, rfl⟩
  simp only [Portfolio.load_state, Portfolio.save_state]
  exact map_from_to_dict p.positions

/-! ### Sells committed before buys (claim C8) -/

theorem sell_appends_sell_trades (p : Portfolio) (symbol : String)
    (q0 pr0 : Option ℚ) (reason now : String) :
    ∃ ts, (p.sell symbol q0 pr0 reason now).2.trade_history
        = p.trade_history ++ ts ∧ ∀ t ∈ ts, t.action = "SELL" := by
  cases hfind : lookupPos p.positions symbol with
  | none =>
      rw [Portfolio.sell, hfind]
      exact ⟨[], (List.append_nil _).symm, by simp⟩
  | some pos =>
      rw [Portfolio.sell, hfind]
      simp only
      split
      · exact ⟨[], (List.append_nil _).symm, by simp⟩
      · refine ⟨_, rfl, ?_⟩
        intro t ht
        rw [List.mem_singleton] at ht
        subst ht
        rfl

theorem buy_appends_buy_trades (p : Portfolio) (symbol : String)
    (quantity price : ℚ) (asset_type reason now : String) :
    ∃ ts, (p.buy symbol quantity price asset_type reason now).2.trade_history
        = p.trade_history ++ ts ∧ ∀ t ∈ ts, t.action = "BUY" := by
  simp only [Portfolio.buy]
  split
  · exact ⟨[], (List.append_nil _).symm, by simp⟩
  · refine ⟨_, rfl, ?_⟩
    intro t ht
    rw [List.mem_singleton] at ht
    subst ht
    rfl

theorem execSells_trade_history (sells : List Signal) : ∀ p now,
    ∃ ts, (execSells p sells now).trade_history = p.trade_history ++ ts ∧
      ∀ t ∈ ts, t.action = "SELL" := by
  induction sells with
  | nil => exact fun p now => ⟨[], (List.append_nil _).symm, by simp⟩
  | cons sig rest ih =>
      intro p now
      rw [execSells]
      by_cases hin : (lookupPos p.positions sig.symbol).isSome
      · rw [if_pos hin]
        obtain ⟨ts1, h1, ha1⟩ :=
          sell_appends_sell_trades p sig.symbol none sig.price (joinedReasons sig) now
        obtain ⟨ts2, h2, ha2⟩ := ih _ now
        refine ⟨ts1 ++ ts2, ?_, ?_⟩
        · rw [h2, h1, List.append_assoc]
        · intro t ht
          rcases List.mem_append.mp ht with h | h
          · exact ha1 t h
          · exact ha2 t h
      · rw [if_neg hin]
        exact ih p now

theorem execBuys_trade_history (bot : OpenClawBot) (buys : List Signal) : ∀ p now,
    ∃ ts, (execBuys bot p buys now).trade_history = p.trade_history ++ ts ∧
      ∀ t ∈ ts, t.action = "BUY" := by
  induction buys with
  | nil => exact fun p now => ⟨[], (List.append_nil _).symm, by simp⟩
  | cons sig rest ih =>
      intro p now
      rw [execBuys]
      split
      · exact ⟨[], (List.append_nil _).symm, by simp⟩
      · simp only
        split
        · exact ih p now
        · obtain ⟨ts1, h1, ha1⟩ := buy_appends_buy_trades p sig.symbol
            (calculate_position_size bot p (sig.price.getD 0)) (sig.price.getD 0)
            sig.asset_type (joinedReasons sig) now
          obtain ⟨ts2, h2, ha2⟩ := ih _ now
          refine ⟨ts1 ++ ts2, ?_, ?_⟩
          · rw [h2, h1, List.append_assoc]
          · intro t ht
            rcases List.mem_append.mp ht with h | h
            · exact ha1 t h
            · exact ha2 t h

/-- C8: execute_signals runs the whole sell phase on the ledger first and
evaluates every buy (including its position sizing) against the post-sell
ledger; consequently the trade records appended by one cycle split into a
block of SELL records followed by a block of BUY records, so no appended
BUY record precedes an appended SELL record. -/
theorem sells_execute_before_buys (bot : OpenClawBot) (p : Portfolio)
    (buys sells : List Signal) (now : String) :
    execute_signals bot p buys sells true now
      = execBuys bot (execSells p sells now) buys now ∧
    ∃ ns nb,
      (execute_signals bot p buys sells true now).trade_history
        = p.trade_history ++ ns ++ nb ∧
      (∀ t ∈ ns, t.action = "SELL") ∧ (∀ t ∈ nb, t.action = "BUY") := by
  refine ⟨rfl, ?_⟩
  obtain ⟨ns, h1, ha1⟩ := execSells_trade_history sells p now
  obtain ⟨nb, h2, ha2⟩ := execBuys_trade_history bot buys (execSells p sells now) now
  refine ⟨ns, nb, ?_, ha1, ha2⟩
  simp only [execute_signals, if_true]
  rw [h2, h1, List.append_assoc]

/-! ### High-water mark (claim C9) -/

theorem updatePosPrice_high_mono (pm : String → Option ℚ) (sym : String)
    (pos : Position) :
    pos.high_since_entry ≤ (updatePosPrice pm sym pos).high_since_entry := by
  rw [updatePosPrice]
  cases pm sym with
  | none => exact le_refl _
  | some v =>
      simp only
      split
      · rename_i h
        exact le_of_lt h
      · exact le_refl _

theorem updatePosPrice_high_ge_current (pm : String → Option ℚ) (sym : String)
    (pos : Position) (h : pos.current_price ≤ pos.high_since_entry) :
    (updatePosPrice pm sym pos).current_price ≤
      (updatePosPrice pm sym pos).high_since_entry := by
  rw [updatePosPrice]
  cases pm sym with
  | none => exact h
  | some v =>
      simp only
      split
      · exact le_refl _
      · rename_i hnot
        exact not_lt.mp hnot

theorem update_prices_lookup (p : Portfolio) (pm : String → Option ℚ)
    (now sym : String) :
    lookupPos (p.update_prices pm now).positions sym
      = (lookupPos p.positions sym).map (updatePosPrice pm sym) := by
  rw [Portfolio.update_prices]
  exact lookupPos_map p.positions sym (fun s pos => updatePosPrice pm s pos)

theorem applyUpdates_high (pms : List ((String → Option ℚ) × String)) :
    ∀ p sym pos, lookupPos p.positions sym = some pos →
    ∃ pos1, lookupPos (applyUpdates p pms).positions sym = some pos1 ∧
      pos.high_since_entry ≤ pos1.high_since_entry ∧
      (pos.current_price ≤ pos.high_since_entry →
        pos1.current_price ≤ pos1.high_since_entry) := by
  induction pms with
  | nil => exact fun p sym pos h => ⟨pos, h, le_refl _, fun hc => hc⟩
  | cons pm rest ih =>
      intro p sym pos h
      have h1 : lookupPos (p.update_prices pm.1 pm.2).positions sym
          = some (updatePosPrice pm.1 sym pos) := by
        rw [update_prices_lookup, h]
        rfl
      obtain ⟨pos1, hl, hmono, hinv⟩ := ih (p.update_prices pm.1 pm.2) sym _ h1
      exact ⟨pos1, hl,
        le_trans (updatePosPrice_high_mono pm.1 sym pos) hmono,
        fun hc => hinv (updatePosPrice_high_ge_current pm.1 sym pos hc)⟩

/-- C9 counterexample: after the re-averaging buy at 120, the position in
A carries current_price 120 but high_since_entry still 100, so
high_since_entry is strictly below current_price right after a ledger
operation: the re-averaging branch of Portfolio.buy (engine.py lines
119-126) sets current_price without touching high_since_entry. -/
theorem high_below_current_after_reaverage :
    lookupPos reavgHighPortfolio.positions "A" =
      some { symbol := "A", quantity := 2, entry_price := 110, entry_date := "t1",
             asset_type := "stock", current_price := 120,
             high_since_entry := 100 } ∧
    (100 : ℚ) < 120 := by
  constructor
  · norm_num [reavgHighPortfolio, applyOps, applyOp, Portfolio.buy, Portfolio.init,
      lookupPos, setPos, Position.make]
  · norm_num

/-- C9 (amended): across any sequence of update_prices calls an open
position stays open and its high_since_entry never decreases, and the
invariant high_since_entry at least current_price is preserved by every
update_prices call and holds for a freshly created position; a
re-averaging buy, however, leaves high_since_entry unchanged while
setting current_price to the trade price, so the invariant can fail right
after such a buy. -/
theorem high_water_mark_amended (p : Portfolio)
    (pms : List ((String → Option ℚ) × String)) (symbol : String) (pos : Position)
    (quantity price : ℚ) (asset_type reason now : String)
    (hfound : lookupPos p.positions symbol = some pos) :
    (∃ pos1, lookupPos (applyUpdates p pms).positions symbol = some pos1 ∧
       pos.high_since_entry ≤ pos1.high_since_entry ∧
       (pos.current_price ≤ pos.high_since_entry →
         pos1.current_price ≤ pos1.high_since_entry)) ∧
    ((Position.make symbol quantity price now asset_type).high_since_entry =
       (Position.make symbol quantity price now asset_type).current_price) ∧
    (∀ pos2, quantity * price ≤ p.cash →
       lookupPos (p.buy symbol quantity price asset_type reason now).2.positions
           symbol = some pos2 →
       pos2.high_since_entry = pos.high_since_entry ∧
       pos2.current_price = price) := by
  refine ⟨applyUpdates_high pms p symbol pos hfound, rfl,
    fun pos2 hcash hl => ?_⟩
  have hbuy : (p.buy symbol quantity price asset_type reason now).2.positions
      = setPos p.positions symbol
          { pos with
            quantity := pos.quantity + quantity,
            entry_price := (pos.quantity * pos.entry_price + quantity * price) /
              (pos.quantity + quantity),
            current_price := price } := by
    simp only [Portfolio.buy]
    rw [if_neg (not_lt.mpr hcash), hfound]
  rw [hbuy, lookupPos_setPos] at hl
  cases Option.some.inj hl
  exact ⟨rfl, rfl⟩

/-- C9 witness: the amended statement at a one-position ledger, one price
update to 130, and a re-averaging buy at 130. -/
theorem high_water_mark_amended_witness :
    (∃ pos1, lookupPos
        (applyUpdates highSamplePortfolio [(fun _ => some 130, "t2")]).positions "A"
        = some pos1 ∧
       (100 : ℚ) ≤ pos1.high_since_entry ∧
       ((100 : ℚ) ≤ (100 : ℚ) →
         pos1.current_price ≤ pos1.high_since_entry)) ∧
    ((Position.make "A" 1 130 "t" "stock").high_since_entry =
       (Position.make "A" 1 130 "t" "stock").current_price) ∧
    (∀ pos2, (1 : ℚ) * 130 ≤ highSamplePortfolio.cash →
       lookupPos (highSamplePortfolio.buy "A" 1 130 "stock" "r" "t").2.positions "A"
         = some pos2 →
       pos2.high_since_entry = (100 : ℚ) ∧ pos2.current_price = 130) :=
  high_water_mark_amended highSamplePortfolio [(fun _ => some 130, "t2")] "A"
    { symbol := "A", quantity := 1, entry_price := 100, entry_date := "t",
      asset_type := "stock", current_price := 100, high_since_entry := 100 }
    1 130 "stock" "r" "t" rfl

/-! ### Scheduler and market hours (claim C10) -/

theorem nextWeekdayFrom_seven_mod (d : ℕ) : nextWeekdayFrom 7 d % 7 < 5 := by
  have e1 : nextWeekdayFrom 7 d
      = if 5 ≤ d % 7 then nextWeekdayFrom 6 (d + 1) else d := rfl
  have e2 : nextWeekdayFrom 6 (d + 1)
      = if 5 ≤ (d + 1) % 7 then nextWeekdayFrom 5 (d + 1 + 1) else d + 1 := rfl
  have e3 : nextWeekdayFrom 5 (d + 1 + 1)
      = if 5 ≤ (d + 1 + 1) % 7 then nextWeekdayFrom 4 (d + 1 + 1 + 1)
        else d + 1 + 1 := rfl
  rw [e1]
  rcases Nat.lt_or_ge (d % 7) 5 with h | h
  · rw [if_neg (by omega)]
    exact h
  · rw [if_pos h, e2]
    rcases Nat.lt_or_ge ((d + 1) % 7) 5 with h1 | h1
    · rw [if_neg (by omega)]
      exact h1
    · rw [if_pos h1, e3, if_neg (by omega)]
      omega

/-- C10: with after-hours crypto trading disabled, a scheduler iteration
whose observed clock lies outside market hours (a weekend day, or a
weekday time outside the configured open and close window, regular or
extended) runs zero orchestrator cycles; a trading cycle runs only when
the market-hours predicate of the observed weekday and time of day holds;
and the next-open boundary computation always lands on a non-weekend
day. -/
theorem scheduler_closed_no_cycles (extended : Bool) (t : ETTime) (k : ℕ) :
    (is_market_hours extended t = false → iteration_cycles false extended t k = 0) ∧
    (iteration_cycles false extended t k ≠ 0 →
       is_market_hours extended t = true) ∧
    (5 ≤ t.weekday → is_market_hours extended t = false) ∧
    (t.weekday < 5 →
       (t.tod < todUS (if extended then 8 else 9) (if extended then 0 else 30) 0
           t.microsecond ∨
        todUS (if extended then 18 else 16) 0 0 t.microsecond < t.tod) →
       is_market_hours extended t = false) ∧
    time_until_market_open_day extended t % 7 < 5 := by
  refine ⟨fun hm => ?_, fun hne => ?_, fun hw => ?_, fun hw hout => ?_, ?_⟩
  · simp [iteration_cycles, scheduler_branch, hm]
  · by_cases hm : is_market_hours extended t = true
    · exact hm
    · exfalso
      apply hne
      have hmf : is_market_hours extended t = false := by
        cases hx : is_market_hours extended t
        · rfl
        · exact absurd hx hm
      simp [iteration_cycles, scheduler_branch, hmf]
  · have hwf : is_weekday t = false := by
      rw [is_weekday]
      exact decide_eq_false (by omega)
    simp [is_market_hours, hwf]
  · have hwt : is_weekday t = true := by
      rw [is_weekday]
      exact decide_eq_true hw
    rw [is_market_hours, hwt]
    simp only [Bool.not_true, Bool.false_eq_true, if_false]
    apply decide_eq_false
    rintro ⟨ho, hc⟩
    rcases hout with h1 | h1 <;> cases extended <;>
      simp only [Bool.false_eq_true, if_false, if_true] at ho hc h1 <;> omega
  · by_cases hcond : t.tod < todUS (if extended then 8 else 9)
        (if extended then 0 else 30) 0 0 ∧ is_weekday t = true
    · simp only [time_until_market_open_day]
      rw [if_pos hcond]
      have hwk := hcond.2
      rw [is_weekday] at hwk
      exact of_decide_eq_true hwk
    · simp only [time_until_market_open_day]
      rw [if_neg hcond]
      exact nextWeekdayFrom_seven_mod (t.day + 1)

end OpenClaw
